import Mathlib

/-!
Shallow embedding of the Snake simulation engine of this repository.

Two near-duplicate engine variants exist in the sources:
  - `Game` embeds the toroidal variant with obstacles
    (`src/src/lib/game.ts`, duplicated in `src/unnamed/part_000`):
    the candidate head wraps modulo the grid, and deaths come from
    obstacle or self collisions only.
  - `BGame` embeds the bounded variant without obstacles
    (`src/unnamed/part_001`): a candidate head outside
    [0,cols) x [0,rows) is a fatal wall collision.

JavaScript numbers on these code paths only ever hold integers, so
coordinates, score and growAmount are embedded as `Int`.  The one
JS-specific operator that matters is `%`, whose truncated-remainder
semantics is embedded as `Int.tmod` inside `wrap`.

Randomness (`Math.floor(Math.random() * free.length)` picks an index in
[0, free.length)) is embedded as an explicit `Nat` parameter reduced
modulo the list length, so every possible random outcome is some value
of the parameter, and theorems quantify over it.
-/

/-- A grid position, `{x, y}` in the source.  Plain value type compared
by structural equality (the source compares `p.x === q.x && p.y === q.y`
or uses the string key `"x,y"`, which for integers is injective). -/
@[ext]
structure Point where
  x : Int
  y : Int
  deriving DecidableEq, Repr

/-- The `reason` field of a fatal `step` outcome. -/
inductive Reason where
  | wall
  | self
  | obstacle
  deriving DecidableEq, Repr

/-- The record returned by `step`: `{ ate, died, reason? }`. -/
structure StepResult where
  ate : Bool
  died : Bool
  reason : Option Reason
  deriving DecidableEq, Repr

/-- `((v % m) + m) % m` with JavaScript's truncated `%` (`Int.tmod`):
the wrap-around normalization applied to each candidate-head coordinate
in the toroidal variant (`game.ts` lines 118-119). -/
def wrap (v m : Int) : Int :=
  (Int.tmod v m + m).tmod m

/-- State of the toroidal engine variant (`src/src/lib/game.ts`). -/
structure Game where
  cols : Int
  rows : Int
  obstacleCount : Nat
  snake : List Point
  direction : Point
  nextDirection : Point
  food : Option Point
  score : Int
  over : Bool
  growAmount : Int
  obstacles : List Point
  deriving DecidableEq, Repr

/-- `list.some(q => q.x === p.x && q.y === p.y)`: does any point of the
list occupy the cell `p`? -/
def hitsAny (l : List Point) (p : Point) : Bool :=
  l.any (fun q => q.x == p.x && q.y == p.y)

/-- The grid scan `for x in 0..cols, for y in 0..rows`, in source order
(outer loop over x, inner loop over y). -/
def allCells (cols rows : Int) : List Point :=
  (List.range cols.toNat).flatMap
    (fun x => (List.range rows.toNat).map (fun y => ⟨(x : Int), (y : Int)⟩))

/-- The free cells scanned by `placeFood`: grid cells occupied neither
by a snake segment nor by an obstacle (`game.ts` lines 86-96). -/
def freeCells (g : Game) : List Point :=
  (allCells g.cols g.rows).filter (fun c => !(hitsAny (g.snake ++ g.obstacles) c))

/-- `Game.placeFood` (`game.ts` lines 85-102): pick a random free cell
as the new food, or `none` when the board is full.  `r` stands for the
random draw; the chosen index is `r % free.length`, exactly the range
`Math.floor(Math.random() * free.length)` can produce. -/
def Game.placeFood (g : Game) (r : Nat) : Game :=
  let free := freeCells g
  if free.length = 0 then { g with food := none }
  else { g with food := some (free.getD (r % free.length) ⟨0, 0⟩) }

/-- The selection loop of `generateObstacles` (`game.ts` lines 78-82):
up to `fuel` rounds, each splicing the cell at random index
`rs.headD 0 % free.length` out of the free list and appending it to the
accumulator, stopping early when the free list is exhausted. -/
def pickLoop : Nat → List Nat → List Point → List Point → List Point
  | 0, _, _, acc => acc
  | Nat.succ fuel, rs, free, acc =>
    if free.length = 0 then acc
    else
      pickLoop fuel rs.tail (free.eraseIdx (rs.headD 0 % free.length))
        (acc ++ [free.getD (rs.headD 0 % free.length) ⟨0, 0⟩])

/-- The free cells scanned by `generateObstacles`: grid cells not
occupied by the snake (`game.ts` lines 69-76). -/
def snakeFreeCells (g : Game) : List Point :=
  (allCells g.cols g.rows).filter (fun c => !(hitsAny g.snake c))

/-- `Game.generateObstacles` (`game.ts` lines 65-83): clear the obstacle
list, then pick `count` random cells avoiding the snake.  `rs` stands
for the successive random draws. -/
def Game.generateObstacles (g : Game) (count : Nat) (rs : List Nat) : Game :=
  if count = 0 then { g with obstacles := [] }
  else { g with obstacles := pickLoop count rs (snakeFreeCells g) [] }

/-- `Game.reset` (`game.ts` lines 42-59): canonical start state, then
obstacles, then food. -/
def Game.reset (g : Game) (rsObs : List Nat) (rFood : Nat) : Game :=
  let midX := Int.fdiv g.cols 2
  let midY := Int.fdiv g.rows 2
  let g1 : Game := { g with
    snake := [⟨midX, midY⟩, ⟨midX - 1, midY⟩, ⟨midX - 2, midY⟩],
    direction := ⟨1, 0⟩,
    nextDirection := ⟨1, 0⟩,
    score := 0,
    over := false,
    growAmount := 0 }
  (g1.generateObstacles g.obstacleCount rsObs).placeFood rFood

/-- `Game.setDirection` (`game.ts` lines 104-108): reject the exact
reversal of the active direction, otherwise queue `d`. -/
def Game.setDirection (g : Game) (d : Point) : Game :=
  if d.x = -g.direction.x ∧ d.y = -g.direction.y then g
  else { g with nextDirection := d }

/-- `this.food && newHead.x === this.food.x && newHead.y === this.food.y`
(`game.ts` line 135). -/
def eats (food : Option Point) (nh : Point) : Bool :=
  match food with
  | some f => nh.x == f.x && nh.y == f.y
  | none => false

/-- The candidate new head computed by the toroidal `step`: current head
plus the just-committed direction (which is the queued `nextDirection`),
wrapped into the grid (`game.ts` lines 114-119). -/
def candidate (g : Game) : Point :=
  let h := g.snake.headD ⟨0, 0⟩
  ⟨wrap (h.x + g.nextDirection.x) g.cols, wrap (h.y + g.nextDirection.y) g.rows⟩

/-- `Game.step` (`game.ts` lines 110-149), the toroidal variant:
terminal no-op when over, else commit the queued direction, wrap the
candidate head, die on obstacle or on any current snake segment,
otherwise move, maybe eat (score, growth token, new food), and drop the
tail unless a growth token is consumed. -/
def Game.step (g : Game) (r : Nat) : Game × StepResult :=
  if g.over then (g, { ate := false, died := true, reason := none })
  else
    let g1 : Game := { g with direction := g.nextDirection }
    let nh : Point := candidate g
    if hitsAny g.obstacles nh then
      ({ g1 with over := true }, { ate := false, died := true, reason := some Reason.obstacle })
    else if hitsAny g.snake nh then
      ({ g1 with over := true }, { ate := false, died := true, reason := some Reason.self })
    else
      let g2 : Game := { g1 with snake := nh :: g1.snake }
      let ateNow : Bool := eats g2.food nh
      let g3 : Game :=
        if ateNow then
          Game.placeFood { g2 with score := g2.score + 1, growAmount := g2.growAmount + 1 } r
        else g2
      let g4 : Game :=
        if 0 < g3.growAmount then { g3 with growAmount := g3.growAmount - 1 }
        else { g3 with snake := g3.snake.dropLast }
      (g4, { ate := ateNow, died := false, reason := none })

/-- Iterated `step`, one random draw per tick. -/
def Game.stepN (g : Game) : List Nat → Game
  | [] => g
  | r :: rs => ((g.step r).1).stepN rs

/-- A public engine operation between two observations: one tick or one
queued direction change. -/
inductive Op where
  | tick (r : Nat)
  | setDir (d : Point)

/-- Apply one public operation to the engine state. -/
def Game.applyOp (g : Game) : Op → Game
  | Op.tick r => (g.step r).1
  | Op.setDir d => g.setDirection d

/-- Run a sequence of public operations (no reset). -/
def Game.runOps (g : Game) : List Op → Game
  | [] => g
  | o :: os => (g.applyOp o).runOps os

/-- Fold a burst of `setDirection` calls arriving between two ticks. -/
def setDirs (g : Game) (ds : List Point) : Game :=
  ds.foldl Game.setDirection g

/-- Last-accepted-wins accumulator: keep `v` unless it is the exact
reversal of the active direction `d`. -/
def lastAccepted (d acc v : Point) : Point :=
  if v.x = -d.x ∧ v.y = -d.y then acc else v

/-- The four unit direction vectors. -/
def unitDirs : List Point :=
  [⟨1, 0⟩, ⟨-1, 0⟩, ⟨0, 1⟩, ⟨0, -1⟩]

/-- No snake segment sits on an obstacle cell: holds in every state the
engine can actually be observed in. -/
def snakeObstaclesDisjoint (g : Game) : Prop :=
  ∀ p ∈ g.snake, p ∉ g.obstacles

/-- State of the bounded engine variant (`src/unnamed/part_001`): same
fields minus obstacles. -/
structure BGame where
  cols : Int
  rows : Int
  snake : List Point
  direction : Point
  nextDirection : Point
  food : Option Point
  score : Int
  over : Bool
  growAmount : Int
  deriving DecidableEq, Repr

/-- The free cells scanned by the bounded variant's `placeFood`
(`part_001` lines 44-51): cells not occupied by the snake. -/
def bFreeCells (g : BGame) : List Point :=
  (allCells g.cols g.rows).filter (fun c => !(hitsAny g.snake c))

/-- `placeFood` of the bounded variant (`part_001` lines 43-57). -/
def BGame.placeFood (g : BGame) (r : Nat) : BGame :=
  let free := bFreeCells g
  if free.length = 0 then { g with food := none }
  else { g with food := some (free.getD (r % free.length) ⟨0, 0⟩) }

/-- The candidate new head of the bounded `step`: current head plus the
committed direction, with no wrapping (`part_001` line 70). -/
def bCandidate (g : BGame) : Point :=
  let h := g.snake.headD ⟨0, 0⟩
  ⟨h.x + g.nextDirection.x, h.y + g.nextDirection.y⟩

/-- `step` of the bounded variant (`part_001` lines 65-100): a candidate
outside [0,cols) x [0,rows) is a fatal wall collision; otherwise as the
toroidal variant, with no obstacle check. -/
def BGame.step (g : BGame) (r : Nat) : BGame × StepResult :=
  if g.over then (g, { ate := false, died := true, reason := none })
  else
    let g1 : BGame := { g with direction := g.nextDirection }
    let nh : Point := bCandidate g
    if nh.x < 0 ∨ g.cols ≤ nh.x ∨ nh.y < 0 ∨ g.rows ≤ nh.y then
      ({ g1 with over := true }, { ate := false, died := true, reason := some Reason.wall })
    else if hitsAny g.snake nh then
      ({ g1 with over := true }, { ate := false, died := true, reason := some Reason.self })
    else
      let g2 : BGame := { g1 with snake := nh :: g1.snake }
      let ateNow : Bool := eats g2.food nh
      let g3 : BGame :=
        if ateNow then
          BGame.placeFood { g2 with score := g2.score + 1, growAmount := g2.growAmount + 1 } r
        else g2
      let g4 : BGame :=
        if 0 < g3.growAmount then { g3 with growAmount := g3.growAmount - 1 }
        else { g3 with snake := g3.snake.dropLast }
      (g4, { ate := ateNow, died := false, reason := none })

/-! ## Concrete example states

Small concrete engine states used to instantiate the theorems below on
explicit inputs. -/

/-- A 4x4 toroidal game about to make a plain move to the empty cell
(2,1), with food elsewhere. -/
def gEx : Game :=
  { cols := 4, rows := 4, obstacleCount := 0, snake := [⟨1, 1⟩, ⟨0, 1⟩],
    direction := ⟨1, 0⟩, nextDirection := ⟨1, 0⟩, food := some ⟨3, 3⟩,
    score := 0, over := false, growAmount := 0, obstacles := [] }

/-- As `gEx` but with the food exactly on the candidate head (2,1). -/
def gEatEx : Game :=
  { cols := 4, rows := 4, obstacleCount := 0, snake := [⟨1, 1⟩, ⟨0, 1⟩],
    direction := ⟨1, 0⟩, nextDirection := ⟨1, 0⟩, food := some ⟨2, 1⟩,
    score := 0, over := false, growAmount := 0, obstacles := [] }

/-- As `gEx` but with an obstacle exactly on the candidate head (2,1). -/
def gObsEx : Game :=
  { cols := 4, rows := 4, obstacleCount := 1, snake := [⟨1, 1⟩, ⟨0, 1⟩],
    direction := ⟨1, 0⟩, nextDirection := ⟨1, 0⟩, food := some ⟨3, 3⟩,
    score := 0, over := false, growAmount := 0, obstacles := [⟨2, 1⟩] }

/-- A game whose candidate head (2,1) is its own second segment. -/
def gSelfEx : Game :=
  { cols := 4, rows := 4, obstacleCount := 0, snake := [⟨1, 1⟩, ⟨2, 1⟩],
    direction := ⟨0, 1⟩, nextDirection := ⟨1, 0⟩, food := some ⟨3, 3⟩,
    score := 0, over := false, growAmount := 0, obstacles := [] }

/-- A snake curled in a square: the candidate head (2,1) equals the
tail segment that this very tick would otherwise free. -/
def gTailEx : Game :=
  { cols := 4, rows := 4, obstacleCount := 0,
    snake := [⟨1, 1⟩, ⟨1, 2⟩, ⟨2, 2⟩, ⟨2, 1⟩],
    direction := ⟨0, -1⟩, nextDirection := ⟨1, 0⟩, food := some ⟨3, 3⟩,
    score := 0, over := false, growAmount := 0, obstacles := [] }

/-- A finished game (`over = true`). -/
def gOver : Game :=
  { cols := 4, rows := 4, obstacleCount := 0, snake := [⟨1, 1⟩],
    direction := ⟨1, 0⟩, nextDirection := ⟨1, 0⟩, food := some ⟨3, 3⟩,
    score := 3, over := true, growAmount := 0, obstacles := [] }

/-- A 1x2 board completely covered by the snake: no free cell. -/
def gFullEx : Game :=
  { cols := 1, rows := 2, obstacleCount := 0, snake := [⟨0, 0⟩, ⟨0, 1⟩],
    direction := ⟨0, 1⟩, nextDirection := ⟨0, 1⟩, food := none,
    score := 0, over := false, growAmount := 0, obstacles := [] }

/-- A 24x24 toroidal game whose head (23,5) is about to wrap to (0,5). -/
def g24Ex : Game :=
  { cols := 24, rows := 24, obstacleCount := 0, snake := [⟨23, 5⟩, ⟨22, 5⟩],
    direction := ⟨1, 0⟩, nextDirection := ⟨1, 0⟩, food := none,
    score := 0, over := false, growAmount := 0, obstacles := [] }

/-- A 10x10 game, input state for the concrete `reset` scenario. -/
def gEx10 : Game :=
  { cols := 10, rows := 10, obstacleCount := 0, snake := [⟨1, 1⟩],
    direction := ⟨1, 0⟩, nextDirection := ⟨1, 0⟩, food := none,
    score := 0, over := false, growAmount := 0, obstacles := [] }

/-- A bounded-variant game whose head (0,1) is about to move off the
left edge. -/
def bWallEx : BGame :=
  { cols := 3, rows := 3, snake := [⟨0, 1⟩], direction := ⟨-1, 0⟩,
    nextDirection := ⟨-1, 0⟩, food := some ⟨2, 2⟩, score := 0,
    over := false, growAmount := 0 }

/-! ## Helper lemmas -/

theorem tmod_lower (a : Int) {n : Int} (h : 0 < n) : -n < a.tmod n := by
  cases a with
  | ofNat m =>
    have h0 : 0 ≤ Int.tmod (Int.ofNat m) n := Int.tmod_nonneg n (Int.ofNat_nonneg m)
    omega
  | negSucc m =>
    obtain ⟨k, rfl⟩ := Int.eq_ofNat_of_zero_le h.le
    have hk : 0 < k := by exact_mod_cast h
    have he : Int.tmod (Int.negSucc m) (k : Int) = -(((m + 1) % k : Nat) : Int) := rfl
    rw [he]
    have hlt : (m + 1) % k < k := Nat.mod_lt _ hk
    omega

theorem wrap_eq_emod (a : Int) {n : Int} (h : 0 < n) : wrap a n = a % n := by
  have hlow := tmod_lower a h
  have h1 : 0 ≤ Int.tmod a n + n := by omega
  unfold wrap
  rw [Int.tmod_eq_emod h1 h.le]
  have h2 : Int.tmod a n + n = Int.tmod a n + n * 1 := by ring
  rw [h2, Int.add_mul_emod_self_left]
  conv_rhs => rw [← Int.tdiv_add_tmod a n]
  rw [Int.add_comm, Int.add_mul_emod_self_left]

theorem wrap_nonneg (a : Int) {n : Int} (h : 0 < n) : 0 ≤ wrap a n := by
  rw [wrap_eq_emod a h]
  exact Int.emod_nonneg a h.ne'

theorem wrap_lt (a : Int) {n : Int} (h : 0 < n) : wrap a n < n := by
  rw [wrap_eq_emod a h]
  exact Int.emod_lt_of_pos a h

theorem hitsAny_iff {l : List Point} {p : Point} : hitsAny l p = true ↔ p ∈ l := by
  unfold hitsAny
  rw [List.any_eq_true]
  constructor
  · rintro ⟨q, hq, hqe⟩
    simp only [Bool.and_eq_true, beq_iff_eq] at hqe
    have hqp : q = p := Point.ext hqe.1 hqe.2
    rwa [hqp] at hq
  · intro hp
    exact ⟨p, hp, by simp⟩

theorem hitsAny_eq_false {l : List Point} {p : Point} : hitsAny l p = false ↔ p ∉ l := by
  rw [← Bool.not_eq_true, not_iff_not]
  exact hitsAny_iff

theorem placeFood_snake (g : Game) (r : Nat) : (g.placeFood r).snake = g.snake := by
  simp only [Game.placeFood]
  split <;> rfl

theorem placeFood_score (g : Game) (r : Nat) : (g.placeFood r).score = g.score := by
  simp only [Game.placeFood]
  split <;> rfl

theorem placeFood_over (g : Game) (r : Nat) : (g.placeFood r).over = g.over := by
  simp only [Game.placeFood]
  split <;> rfl

theorem placeFood_growAmount (g : Game) (r : Nat) : (g.placeFood r).growAmount = g.growAmount := by
  simp only [Game.placeFood]
  split <;> rfl

theorem placeFood_obstacles (g : Game) (r : Nat) : (g.placeFood r).obstacles = g.obstacles := by
  simp only [Game.placeFood]
  split <;> rfl

theorem placeFood_direction (g : Game) (r : Nat) : (g.placeFood r).direction = g.direction := by
  simp only [Game.placeFood]
  split <;> rfl

theorem placeFood_nextDirection (g : Game) (r : Nat) :
    (g.placeFood r).nextDirection = g.nextDirection := by
  simp only [Game.placeFood]
  split <;> rfl

theorem step_eq (g : Game) (r : Nat) :
    g.step r =
      if g.over then (g, { ate := false, died := true, reason := none })
      else if hitsAny g.obstacles (candidate g) then
        ({ g with direction := g.nextDirection, over := true },
          { ate := false, died := true, reason := some Reason.obstacle })
      else if hitsAny g.snake (candidate g) then
        ({ g with direction := g.nextDirection, over := true },
          { ate := false, died := true, reason := some Reason.self })
      else if eats g.food (candidate g) then
        let gmoved : Game := { g with
          direction := g.nextDirection,
          snake := candidate g :: g.snake,
          score := g.score + 1,
          growAmount := g.growAmount + 1 }
        let gm := Game.placeFood gmoved r
        (if 0 < gm.growAmount then { gm with growAmount := gm.growAmount - 1 }
         else { gm with snake := gm.snake.dropLast },
          { ate := true, died := false, reason := none })
      else
        (if 0 < g.growAmount then
          { g with
            direction := g.nextDirection,
            snake := candidate g :: g.snake,
            growAmount := g.growAmount - 1 }
         else
          { g with
            direction := g.nextDirection,
            snake := (candidate g :: g.snake).dropLast },
          { ate := false, died := false, reason := none }) := by
  simp only [Game.step]
  split_ifs <;> simp_all

theorem bplaceFood_snake (g : BGame) (r : Nat) : (g.placeFood r).snake = g.snake := by
  simp only [BGame.placeFood]
  split <;> rfl

theorem bplaceFood_score (g : BGame) (r : Nat) : (g.placeFood r).score = g.score := by
  simp only [BGame.placeFood]
  split <;> rfl

theorem bplaceFood_over (g : BGame) (r : Nat) : (g.placeFood r).over = g.over := by
  simp only [BGame.placeFood]
  split <;> rfl

theorem bplaceFood_growAmount (g : BGame) (r : Nat) :
    (g.placeFood r).growAmount = g.growAmount := by
  simp only [BGame.placeFood]
  split <;> rfl

theorem bstep_eq (g : BGame) (r : Nat) :
    g.step r =
      if g.over then (g, { ate := false, died := true, reason := none })
      else if (bCandidate g).x < 0 ∨ g.cols ≤ (bCandidate g).x ∨
          (bCandidate g).y < 0 ∨ g.rows ≤ (bCandidate g).y then
        ({ g with direction := g.nextDirection, over := true },
          { ate := false, died := true, reason := some Reason.wall })
      else if hitsAny g.snake (bCandidate g) then
        ({ g with direction := g.nextDirection, over := true },
          { ate := false, died := true, reason := some Reason.self })
      else if eats g.food (bCandidate g) then
        let gmoved : BGame := { g with
          direction := g.nextDirection,
          snake := bCandidate g :: g.snake,
          score := g.score + 1,
          growAmount := g.growAmount + 1 }
        let gm := BGame.placeFood gmoved r
        (if 0 < gm.growAmount then { gm with growAmount := gm.growAmount - 1 }
         else { gm with snake := gm.snake.dropLast },
          { ate := true, died := false, reason := none })
      else
        (if 0 < g.growAmount then
          { g with
            direction := g.nextDirection,
            snake := bCandidate g :: g.snake,
            growAmount := g.growAmount - 1 }
         else
          { g with
            direction := g.nextDirection,
            snake := (bCandidate g :: g.snake).dropLast },
          { ate := false, died := false, reason := none }) := by
  simp only [BGame.step]
  split_ifs <;> simp_all


theorem generateObstacles_snake (g : Game) (count : Nat) (rs : List Nat) :
    (g.generateObstacles count rs).snake = g.snake := by
  simp only [Game.generateObstacles]
  split <;> rfl

theorem generateObstacles_direction (g : Game) (count : Nat) (rs : List Nat) :
    (g.generateObstacles count rs).direction = g.direction := by
  simp only [Game.generateObstacles]
  split <;> rfl

theorem generateObstacles_nextDirection (g : Game) (count : Nat) (rs : List Nat) :
    (g.generateObstacles count rs).nextDirection = g.nextDirection := by
  simp only [Game.generateObstacles]
  split <;> rfl

theorem generateObstacles_score (g : Game) (count : Nat) (rs : List Nat) :
    (g.generateObstacles count rs).score = g.score := by
  simp only [Game.generateObstacles]
  split <;> rfl

theorem generateObstacles_over (g : Game) (count : Nat) (rs : List Nat) :
    (g.generateObstacles count rs).over = g.over := by
  simp only [Game.generateObstacles]
  split <;> rfl

theorem generateObstacles_growAmount (g : Game) (count : Nat) (rs : List Nat) :
    (g.generateObstacles count rs).growAmount = g.growAmount := by
  simp only [Game.generateObstacles]
  split <;> rfl

theorem generateObstacles_cols (g : Game) (count : Nat) (rs : List Nat) :
    (g.generateObstacles count rs).cols = g.cols := by
  simp only [Game.generateObstacles]
  split <;> rfl

theorem generateObstacles_rows (g : Game) (count : Nat) (rs : List Nat) :
    (g.generateObstacles count rs).rows = g.rows := by
  simp only [Game.generateObstacles]
  split <;> rfl

/-! ## Claim theorems -/

/-- C3: once `over = true`, every `step()` call returns `died = true`
and leaves the whole engine state unchanged, and iterating `step` any
number of times from a finished game is the identity on the state. -/
theorem claim_c3_terminal_idempotence :
    (∀ (g : Game) (r : Nat), g.over = true →
      g.step r = (g, { ate := false, died := true, reason := none })) ∧
    (∀ (g : Game) (rs : List Nat), g.over = true → g.stepN rs = g) := by
  have hstep : ∀ (g : Game) (r : Nat), g.over = true →
      g.step r = (g, { ate := false, died := true, reason := none }) := by
    intro g r h
    simp [Game.step, h]
  refine ⟨hstep, ?_⟩
  intro g rs h
  induction rs generalizing g with
  | nil => rfl
  | cons r rs ih =>
    rw [Game.stepN, hstep g r h]
    exact ih g h

theorem claim_c3_witness :
    gOver.step 0 = (gOver, { ate := false, died := true, reason := none }) ∧
    gOver.stepN [0, 1, 2] = gOver :=
  ⟨claim_c3_terminal_idempotence.1 gOver 0 rfl,
   claim_c3_terminal_idempotence.2 gOver [0, 1, 2] rfl⟩

/-- C7: the toroidal `step` normalizes the candidate head with floored
modulo, so both coordinates land in [0,cols) x [0,rows) even for
negative inputs; with cols = rows = 24 a head at (23,y) moving (1,0)
becomes (0,y); and the wrap itself never produces a death: a fatal
toroidal `step` is always an obstacle or self collision (in particular
its reason is never wall). -/
theorem claim_c7_toroidal_wrap :
    (∀ (a n : Int), 0 < n → 0 ≤ wrap a n ∧ wrap a n < n ∧ wrap a n = Int.fmod a n) ∧
    (∀ (g : Game), 0 < g.cols → 0 < g.rows →
      0 ≤ (candidate g).x ∧ (candidate g).x < g.cols ∧
      0 ≤ (candidate g).y ∧ (candidate g).y < g.rows) ∧
    (∀ (g : Game) (y : Int), g.cols = 24 → g.rows = 24 →
      g.snake.headD ⟨0, 0⟩ = ⟨23, y⟩ → g.nextDirection = ⟨1, 0⟩ →
      0 ≤ y → y < 24 → candidate g = ⟨0, y⟩) ∧
    (∀ (g : Game) (r : Nat), g.over = false → (g.step r).2.died = true →
      candidate g ∈ g.obstacles ∨ candidate g ∈ g.snake) ∧
    (∀ (g : Game) (r : Nat), (g.step r).2.reason ≠ some Reason.wall) := by
  refine ⟨?_, ?_, ?_, ?_, ?_⟩
  · intro a n hn
    exact ⟨wrap_nonneg a hn, wrap_lt a hn,
      by rw [wrap_eq_emod a hn, Int.fmod_eq_emod a hn.le]⟩
  · intro g hc hr
    exact ⟨wrap_nonneg _ hc, wrap_lt _ hc, wrap_nonneg _ hr, wrap_lt _ hr⟩
  · intro g y hc hr hh hd hy hylt
    unfold candidate
    rw [hh, hd, hc, hr]
    have hx : wrap (24 : Int) 24 = 0 := by decide
    have hyw : wrap y 24 = y := by
      rw [wrap_eq_emod y (by norm_num)]
      exact Int.emod_eq_of_lt hy hylt
    simp [hx, hyw]
  · intro g r hov hdied
    rw [step_eq] at hdied
    rw [hov] at hdied
    simp only [if_false, Bool.false_eq_true] at hdied
    by_cases hobs : hitsAny g.obstacles (candidate g)
    · exact Or.inl (hitsAny_iff.mp hobs)
    · by_cases hself : hitsAny g.snake (candidate g)
      · exact Or.inr (hitsAny_iff.mp hself)
      · rw [if_neg (by simp [hobs]), if_neg (by simp [hself])] at hdied
        split_ifs at hdied
  · intro g r
    rw [step_eq]
    split_ifs <;> simp

theorem claim_c7_witness :
    (0 ≤ wrap (-1) 24 ∧ wrap (-1) 24 < 24 ∧ wrap (-1) 24 = Int.fmod (-1) 24) ∧
    candidate g24Ex = ⟨0, 5⟩ ∧
    (g24Ex.step 0).2.reason ≠ some Reason.wall :=
  ⟨claim_c7_toroidal_wrap.1 (-1) 24 (by decide),
   claim_c7_toroidal_wrap.2.2.1 g24Ex 5 rfl rfl rfl rfl (by decide) (by decide),
   claim_c7_toroidal_wrap.2.2.2.2 g24Ex 0⟩

/-- C1: from a live state, a candidate head that hits a wall (bounded
variant: candidate outside [0,cols) x [0,rows)), an obstacle, or a
current snake segment makes `step` return `died = true` with the
corresponding reason, set `over = true`, and leave snake, score, food
(and obstacles) exactly as they were.  The self case is stated for a
candidate not on an obstacle, because the source checks obstacles
first. -/
theorem claim_c1_collision_death :
    (∀ (g : BGame) (r : Nat), g.over = false →
      ((bCandidate g).x < 0 ∨ g.cols ≤ (bCandidate g).x ∨
       (bCandidate g).y < 0 ∨ g.rows ≤ (bCandidate g).y) →
      (g.step r).2 = { ate := false, died := true, reason := some Reason.wall } ∧
      (g.step r).1.over = true ∧ (g.step r).1.snake = g.snake ∧
      (g.step r).1.score = g.score ∧ (g.step r).1.food = g.food) ∧
    (∀ (g : Game) (r : Nat), g.over = false → candidate g ∈ g.obstacles →
      (g.step r).2 = { ate := false, died := true, reason := some Reason.obstacle } ∧
      (g.step r).1.over = true ∧ (g.step r).1.snake = g.snake ∧
      (g.step r).1.score = g.score ∧ (g.step r).1.food = g.food ∧
      (g.step r).1.obstacles = g.obstacles) ∧
    (∀ (g : Game) (r : Nat), g.over = false → candidate g ∉ g.obstacles →
      candidate g ∈ g.snake →
      (g.step r).2 = { ate := false, died := true, reason := some Reason.self } ∧
      (g.step r).1.over = true ∧ (g.step r).1.snake = g.snake ∧
      (g.step r).1.score = g.score ∧ (g.step r).1.food = g.food ∧
      (g.step r).1.obstacles = g.obstacles) := by
  refine ⟨?_, ?_, ?_⟩
  · intro g r hov hw
    rw [bstep_eq, hov]
    simp only [Bool.false_eq_true, if_false]
    rw [if_pos hw]
    simp
  · intro g r hov hob
    rw [step_eq, hov]
    simp only [Bool.false_eq_true, if_false]
    rw [if_pos (hitsAny_iff.mpr hob)]
    simp
  · intro g r hov hob hself
    rw [step_eq, hov]
    simp only [Bool.false_eq_true, if_false]
    rw [if_neg (by simp [hitsAny_eq_false.mpr hob]), if_pos (hitsAny_iff.mpr hself)]
    simp

theorem claim_c1_witness :
    ((bWallEx.step 0).2 = { ate := false, died := true, reason := some Reason.wall } ∧
      (bWallEx.step 0).1.over = true) ∧
    ((gObsEx.step 0).2 = { ate := false, died := true, reason := some Reason.obstacle } ∧
      (gObsEx.step 0).1.snake = gObsEx.snake) ∧
    ((gSelfEx.step 0).2 = { ate := false, died := true, reason := some Reason.self } ∧
      (gSelfEx.step 0).1.over = true) :=
  ⟨⟨(claim_c1_collision_death.1 bWallEx 0 rfl (by decide)).1,
    (claim_c1_collision_death.1 bWallEx 0 rfl (by decide)).2.1⟩,
   ⟨(claim_c1_collision_death.2.1 gObsEx 0 rfl (by decide)).1,
    (claim_c1_collision_death.2.1 gObsEx 0 rfl (by decide)).2.2.1⟩,
   ⟨(claim_c1_collision_death.2.2 gSelfEx 0 rfl (by decide) (by decide)).1,
    (claim_c1_collision_death.2.2 gSelfEx 0 rfl (by decide) (by decide)).2.1⟩⟩

/-- C5: `setDirection` of the exact reversal of the current direction
is a complete no-op; any other of the four unit vectors is stored into
`nextDirection`; the active `direction` is never changed by
`setDirection`; and a burst of calls between two steps obeys
last-accepted-wins: the resulting `nextDirection` is the fold of the
accept-or-keep rule over the burst. -/
theorem claim_c5_direction_buffer :
    (∀ (g : Game) (d : Point), d.x = -g.direction.x → d.y = -g.direction.y →
      g.setDirection d = g) ∧
    (∀ (g : Game) (v : Point), g.direction ∈ unitDirs → v ∈ unitDirs →
      v ≠ ⟨-g.direction.x, -g.direction.y⟩ →
      g.setDirection v = { g with nextDirection := v }) ∧
    (∀ (g : Game) (v : Point), (g.setDirection v).direction = g.direction) ∧
    (∀ (g : Game) (ds : List Point),
      (setDirs g ds).direction = g.direction ∧
      (setDirs g ds).nextDirection =
        ds.foldl (lastAccepted g.direction) g.nextDirection) := by
  have hdir : ∀ (g : Game) (v : Point), (g.setDirection v).direction = g.direction := by
    intro g v
    unfold Game.setDirection
    split <;> rfl
  have hnext : ∀ (g : Game) (v : Point),
      (g.setDirection v).nextDirection = lastAccepted g.direction g.nextDirection v := by
    intro g v
    unfold Game.setDirection lastAccepted
    split <;> rfl
  refine ⟨?_, ?_, hdir, ?_⟩
  · intro g d h1 h2
    unfold Game.setDirection
    rw [if_pos ⟨h1, h2⟩]
  · intro g v _ _ hne
    unfold Game.setDirection
    rw [if_neg]
    rintro ⟨h1, h2⟩
    exact hne (Point.ext h1 h2)
  · intro g ds
    induction ds generalizing g with
    | nil => exact ⟨rfl, rfl⟩
    | cons v ds ih =>
      have h := ih (g.setDirection v)
      refine ⟨?_, ?_⟩
      · rw [setDirs, List.foldl_cons, ← setDirs, h.1, hdir]
      · rw [setDirs, List.foldl_cons, ← setDirs, h.2, hdir, hnext, List.foldl_cons]

theorem claim_c5_witness :
    gEx.setDirection ⟨-1, 0⟩ = gEx ∧
    gEx.setDirection ⟨0, 1⟩ = { gEx with nextDirection := ⟨0, 1⟩ } ∧
    (setDirs gEx [⟨0, 1⟩, ⟨-1, 0⟩, ⟨0, -1⟩]).nextDirection = ⟨0, -1⟩ :=
  ⟨claim_c5_direction_buffer.1 gEx ⟨-1, 0⟩ (by decide) (by decide),
   claim_c5_direction_buffer.2.1 gEx ⟨0, 1⟩ (by decide) (by decide) (by decide),
   by
    rw [(claim_c5_direction_buffer.2.2.2 gEx [⟨0, 1⟩, ⟨-1, 0⟩, ⟨0, -1⟩]).2]
    decide⟩

/-- C8: after any `reset()` the state is the canonical start: a
3-segment snake centered on the grid, contiguous along the horizontal
axis with the head leading in +x, both direction fields (1,0), score 0,
`over` false, `growAmount` 0; with cols = rows = 10 the snake is exactly
[(5,5),(4,5),(3,5)]. -/
theorem claim_c8_reset_canonical :
    (∀ (g : Game) (rsObs : List Nat) (rFood : Nat),
      (g.reset rsObs rFood).snake =
        [⟨Int.fdiv g.cols 2, Int.fdiv g.rows 2⟩,
         ⟨Int.fdiv g.cols 2 - 1, Int.fdiv g.rows 2⟩,
         ⟨Int.fdiv g.cols 2 - 2, Int.fdiv g.rows 2⟩] ∧
      (g.reset rsObs rFood).direction = ⟨1, 0⟩ ∧
      (g.reset rsObs rFood).nextDirection = ⟨1, 0⟩ ∧
      (g.reset rsObs rFood).score = 0 ∧
      (g.reset rsObs rFood).over = false ∧
      (g.reset rsObs rFood).growAmount = 0) ∧
    (∀ (g : Game) (rsObs : List Nat) (rFood : Nat), g.cols = 10 → g.rows = 10 →
      (g.reset rsObs rFood).snake = [⟨5, 5⟩, ⟨4, 5⟩, ⟨3, 5⟩]) := by
  have hsnake : ∀ (g : Game) (rsObs : List Nat) (rFood : Nat),
      (g.reset rsObs rFood).snake =
        [⟨Int.fdiv g.cols 2, Int.fdiv g.rows 2⟩,
         ⟨Int.fdiv g.cols 2 - 1, Int.fdiv g.rows 2⟩,
         ⟨Int.fdiv g.cols 2 - 2, Int.fdiv g.rows 2⟩] := by
    intro g rsObs rFood
    unfold Game.reset
    rw [placeFood_snake, generateObstacles_snake]
  constructor
  · intro g rsObs rFood
    refine ⟨hsnake g rsObs rFood, ?_, ?_, ?_, ?_, ?_⟩ <;>
      unfold Game.reset <;>
      simp only [placeFood_direction, placeFood_nextDirection, placeFood_score,
        placeFood_over, placeFood_growAmount, generateObstacles_direction,
        generateObstacles_nextDirection, generateObstacles_score,
        generateObstacles_over, generateObstacles_growAmount]
  · intro g rsObs rFood hc hr
    rw [hsnake g rsObs rFood, hc, hr]
    decide

theorem claim_c8_witness :
    (gEx10.reset [] 0).snake = [⟨5, 5⟩, ⟨4, 5⟩, ⟨3, 5⟩] ∧
    (gEx10.reset [] 0).direction = ⟨1, 0⟩ ∧
    (gEx10.reset [] 0).score = 0 ∧
    (gEx10.reset [] 0).over = false :=
  ⟨claim_c8_reset_canonical.2 gEx10 [] 0 rfl rfl,
   (claim_c8_reset_canonical.1 gEx10 [] 0).2.1,
   (claim_c8_reset_canonical.1 gEx10 [] 0).2.2.2.1,
   (claim_c8_reset_canonical.1 gEx10 [] 0).2.2.2.2.1⟩

/-- C2: on a live engine state (where `growAmount` is 0, as it is after
every public operation), a `step` that reports `ate = true` grows the
snake by exactly one segment, and a `step` that reports `ate = false`
and `died = false` leaves the snake length exactly unchanged.  The
eating case is proved under the weaker `0 ≤ growAmount`. -/
theorem claim_c2_growth_invariant :
    (∀ (g : Game) (r : Nat), g.over = false → 0 ≤ g.growAmount →
      (g.step r).2.ate = true →
      (g.step r).1.snake.length = g.snake.length + 1) ∧
    (∀ (g : Game) (r : Nat), g.over = false → g.growAmount = 0 →
      (g.step r).2.ate = false → (g.step r).2.died = false →
      (g.step r).1.snake.length = g.snake.length) := by
  constructor
  · intro g r hov hga hate
    rw [step_eq] at hate ⊢
    rw [hov] at hate ⊢
    simp only [Bool.false_eq_true, if_false] at hate ⊢
    split_ifs at hate ⊢ <;> (simp_all [placeFood_snake, placeFood_growAmount]; try omega)
  · intro g r hov hga hate hdied
    rw [step_eq] at hate hdied ⊢
    rw [hov] at hate hdied ⊢
    simp only [Bool.false_eq_true, if_false] at hate hdied ⊢
    split_ifs at hate hdied ⊢ <;>
      simp_all [placeFood_snake, placeFood_growAmount, List.length_dropLast]

theorem claim_c2_witness :
    0 ≤ gEatEx.growAmount ∧ (gEatEx.step 0).2.ate = true ∧
    (gEatEx.step 0).1.snake.length = gEatEx.snake.length + 1 ∧
    (gEx.step 0).2.ate = false ∧ (gEx.step 0).2.died = false ∧
    (gEx.step 0).1.snake.length = gEx.snake.length :=
  ⟨by decide, by decide,
   claim_c2_growth_invariant.1 gEatEx 0 rfl (by decide) (by decide),
   by decide, by decide,
   claim_c2_growth_invariant.2 gEx 0 rfl rfl (by decide) (by decide)⟩

theorem step_score_char (g : Game) (r : Nat) :
    (g.step r).1.score = if (g.step r).2.ate = true then g.score + 1 else g.score := by
  rw [step_eq]
  split_ifs <;> simp_all [placeFood_score, apply_ite Game.score]

theorem setDirection_score (g : Game) (d : Point) :
    (g.setDirection d).score = g.score := by
  unfold Game.setDirection
  split <;> rfl

/-- C9: each `step` adds exactly 1 to `score` when it reports
`ate = true` and leaves `score` unchanged otherwise; consequently over
any sequence of `step` and `setDirection` calls (no reset) the score is
non-decreasing. -/
theorem claim_c9_score_monotonic :
    (∀ (g : Game) (r : Nat),
      ((g.step r).2.ate = true → (g.step r).1.score = g.score + 1) ∧
      ((g.step r).2.ate = false → (g.step r).1.score = g.score)) ∧
    (∀ (g : Game) (ops : List Op), g.score ≤ (g.runOps ops).score) := by
  constructor
  · intro g r
    constructor <;> intro h <;> rw [step_score_char g r, h] <;> simp
  · have hone : ∀ (g : Game) (o : Op), g.score ≤ (g.applyOp o).score := by
      intro g o
      cases o with
      | tick r =>
        show g.score ≤ (g.step r).1.score
        rw [step_score_char g r]
        split <;> omega
      | setDir d =>
        show g.score ≤ (g.setDirection d).score
        rw [setDirection_score]
    intro g ops
    induction ops generalizing g with
    | nil => exact le_refl _
    | cons o os ih => exact le_trans (hone g o) (ih (g.applyOp o))

theorem claim_c9_witness :
    (gEatEx.step 0).2.ate = true ∧ (gEatEx.step 0).1.score = gEatEx.score + 1 ∧
    (gEx.step 0).2.ate = false ∧ (gEx.step 0).1.score = gEx.score ∧
    gEx.score ≤ (gEx.runOps [Op.setDir ⟨0, 1⟩, Op.tick 0, Op.tick 1]).score :=
  ⟨by decide, (claim_c9_score_monotonic.1 gEatEx 0).1 (by decide),
   by decide, (claim_c9_score_monotonic.1 gEx 0).2 (by decide),
   claim_c9_score_monotonic.2 gEx [Op.setDir ⟨0, 1⟩, Op.tick 0, Op.tick 1]⟩

/-- C10: `growAmount` is 0 after every public operation: `reset` sets
it to 0, `setDirection` never touches it, a completed `step` from a
state with `growAmount = 0` ends with `growAmount = 0` (the increment
at the food check is consumed by the decrement of the same tick), and
hence it is 0 after any sequence of public operations following a
reset. -/
theorem claim_c10_growAmount_zero :
    (∀ (g : Game) (rsObs : List Nat) (rFood : Nat),
      (g.reset rsObs rFood).growAmount = 0) ∧
    (∀ (g : Game) (d : Point), (g.setDirection d).growAmount = g.growAmount) ∧
    (∀ (g : Game) (r : Nat), g.growAmount = 0 → (g.step r).1.growAmount = 0) ∧
    (∀ (g : Game) (rsObs : List Nat) (rFood : Nat) (ops : List Op),
      ((g.reset rsObs rFood).runOps ops).growAmount = 0) := by
  have hreset : ∀ (g : Game) (rsObs : List Nat) (rFood : Nat),
      (g.reset rsObs rFood).growAmount = 0 := by
    intro g rsObs rFood
    unfold Game.reset
    rw [placeFood_growAmount, generateObstacles_growAmount]
  have hset : ∀ (g : Game) (d : Point),
      (g.setDirection d).growAmount = g.growAmount := by
    intro g d
    unfold Game.setDirection
    split <;> rfl
  have hstep : ∀ (g : Game) (r : Nat), g.growAmount = 0 →
      (g.step r).1.growAmount = 0 := by
    intro g r hga
    rw [step_eq]
    split_ifs <;> (simp_all [placeFood_growAmount, apply_ite Game.growAmount]; try omega)
  refine ⟨hreset, hset, hstep, ?_⟩
  have hinv : ∀ (ops : List Op) (h : Game), h.growAmount = 0 →
      (h.runOps ops).growAmount = 0 := by
    intro ops
    induction ops with
    | nil => exact fun h hh => hh
    | cons o os ih =>
      intro h hh
      refine ih (h.applyOp o) ?_
      cases o with
      | tick r => exact hstep h r hh
      | setDir d => rw [Game.applyOp, hset h d]; exact hh
  intro g rsObs rFood ops
  exact hinv ops _ (hreset g rsObs rFood)

theorem claim_c10_witness :
    (gEx10.reset [] 0).growAmount = 0 ∧
    (gEx.setDirection ⟨0, 1⟩).growAmount = gEx.growAmount ∧
    (gEatEx.step 0).2.ate = true ∧ (gEatEx.step 0).1.growAmount = 0 ∧
    ((gEx10.reset [] 0).runOps [Op.tick 0, Op.setDir ⟨0, 1⟩, Op.tick 1]).growAmount = 0 :=
  ⟨claim_c10_growAmount_zero.1 gEx10 [] 0,
   claim_c10_growAmount_zero.2.1 gEx ⟨0, 1⟩,
   by decide,
   claim_c10_growAmount_zero.2.2.1 gEatEx 0 rfl,
   claim_c10_growAmount_zero.2.2.2 gEx10 [] 0 [Op.tick 0, Op.setDir ⟨0, 1⟩, Op.tick 1]⟩

theorem getD_mem {l : List Point} {i : Nat} (h : i < l.length) (d : Point) :
    l.getD i d ∈ l := by
  rw [List.getD_eq_getElem l d h]
  exact List.getElem_mem h

theorem pickLoop_subset :
    ∀ (fuel : Nat) (rs : List Nat) (free acc : List Point) (x : Point),
      x ∈ pickLoop fuel rs free acc → x ∈ acc ∨ x ∈ free := by
  intro fuel
  induction fuel with
  | zero => exact fun rs free acc x hx => Or.inl hx
  | succ n ih =>
    intro rs free acc x hx
    rw [pickLoop] at hx
    split at hx
    · exact Or.inl hx
    · rename_i hlen
      have hidx : rs.headD 0 % free.length < free.length :=
        Nat.mod_lt _ (Nat.pos_of_ne_zero hlen)
      rcases ih rs.tail (free.eraseIdx (rs.headD 0 % free.length))
          (acc ++ [free.getD (rs.headD 0 % free.length) ⟨0, 0⟩]) x hx with h | h
      · rcases List.mem_append.mp h with h | h
        · exact Or.inl h
        · rw [List.mem_singleton] at h
          subst h
          exact Or.inr (getD_mem hidx _)
      · exact Or.inr (List.mem_of_mem_eraseIdx h)

theorem generateObstacles_not_on_snake (g : Game) (count : Nat) (rs : List Nat) :
    ∀ x ∈ (g.generateObstacles count rs).obstacles, x ∉ g.snake := by
  intro x hx
  rw [Game.generateObstacles] at hx
  split at hx
  · simp at hx
  · rcases pickLoop_subset count rs (snakeFreeCells g) [] x hx with h | h
    · simp at h
    · have := (List.mem_filter.mp h).2
      simp only [Bool.not_eq_eq_eq_not, Bool.not_true] at this
      exact hitsAny_eq_false.mp this

theorem step_preserves_disjoint (g : Game) (r : Nat)
    (hg : snakeObstaclesDisjoint g) : snakeObstaclesDisjoint (g.step r).1 := by
  have hcand : hitsAny g.obstacles (candidate g) = false → candidate g ∉ g.obstacles :=
    fun h => hitsAny_eq_false.mp h
  unfold snakeObstaclesDisjoint at hg ⊢
  rw [step_eq]
  simp only []
  split_ifs with h1 h2 h3 h4 h5
  · exact hg
  · exact hg
  · exact hg
  · intro p hp
    rw [placeFood_obstacles]
    rw [placeFood_snake] at hp
    rcases List.mem_cons.mp hp with h | h
    · subst h
      exact hcand (by simpa using h2)
    · exact hg p h
  · intro p hp
    rw [placeFood_obstacles]
    rw [placeFood_snake] at hp
    have hp2 : p ∈ candidate g :: g.snake := List.dropLast_subset _ hp
    rcases List.mem_cons.mp hp2 with h | h
    · subst h
      exact hcand (by simpa using h2)
    · exact hg p h
  · intro p hp
    rcases List.mem_cons.mp hp with h | h
    · subst h
      exact hcand (by simpa using h2)
    · exact hg p h
  · intro p hp
    have hp2 : p ∈ candidate g :: g.snake := List.dropLast_subset _ hp
    rcases List.mem_cons.mp hp2 with h | h
    · subst h
      exact hcand (by simpa using h2)
    · exact hg p h

theorem setDirection_snake (g : Game) (d : Point) :
    (g.setDirection d).snake = g.snake := by
  unfold Game.setDirection
  split <;> rfl

theorem setDirection_obstacles (g : Game) (d : Point) :
    (g.setDirection d).obstacles = g.obstacles := by
  unfold Game.setDirection
  split <;> rfl

/-- C4: the self-collision check runs against every current snake
segment, including the tail that would be freed in the same tick: from
a live state with `growAmount = 0` whose candidate head equals the
current tail (and is not on an obstacle -- snake cells never are, as
the first two conjuncts show the snake/obstacle disjointness to be
established by `reset` and preserved by every operation), `step` dies
with reason self and sets `over = true`. -/
theorem claim_c4_tail_cell_occupied :
    (∀ (g : Game) (rsObs : List Nat) (rFood : Nat),
      snakeObstaclesDisjoint (g.reset rsObs rFood)) ∧
    (∀ (g : Game) (o : Op), snakeObstaclesDisjoint g →
      snakeObstaclesDisjoint (g.applyOp o)) ∧
    (∀ (g : Game) (r : Nat), g.over = false → g.growAmount = 0 →
      candidate g ∉ g.obstacles → g.snake.getLast? = some (candidate g) →
      (g.step r).2 = { ate := false, died := true, reason := some Reason.self } ∧
      (g.step r).1.over = true) := by
  refine ⟨?_, ?_, ?_⟩
  · intro g rsObs rFood
    unfold snakeObstaclesDisjoint
    intro p hp hpo
    simp only [Game.reset] at hp hpo
    rw [placeFood_snake, generateObstacles_snake] at hp
    rw [placeFood_obstacles] at hpo
    exact generateObstacles_not_on_snake _ _ _ p hpo hp
  · intro g o hg
    cases o with
    | tick r => exact step_preserves_disjoint g r hg
    | setDir d =>
      unfold snakeObstaclesDisjoint at hg ⊢
      rw [Game.applyOp]
      intro p hp
      rw [setDirection_obstacles]
      rw [setDirection_snake] at hp
      exact hg p hp
  · intro g r hov _hga hob hlast
    have hself : candidate g ∈ g.snake := List.mem_of_mem_getLast? hlast
    rw [step_eq, hov]
    simp only [Bool.false_eq_true, if_false]
    rw [if_neg (by simp [hitsAny_eq_false.mpr hob]), if_pos (hitsAny_iff.mpr hself)]
    simp

theorem claim_c4_witness :
    gTailEx.snake.getLast? = some (candidate gTailEx) ∧
    (gTailEx.step 0).2 = { ate := false, died := true, reason := some Reason.self } ∧
    (gTailEx.step 0).1.over = true ∧
    snakeObstaclesDisjoint (gEx10.reset [] 0) :=
  ⟨by decide,
   (claim_c4_tail_cell_occupied.2.2 gTailEx 0 rfl rfl (by decide) (by decide)).1,
   (claim_c4_tail_cell_occupied.2.2 gTailEx 0 rfl rfl (by decide) (by decide)).2,
   claim_c4_tail_cell_occupied.1 gEx10 [] 0⟩

/-- C6: membership in `freeCells` means exactly: a grid cell holding no
snake segment and no obstacle; after any `placeFood`, if a free cell
exists the food is one of the free cells (hence on no snake segment or
obstacle, for every random draw), and if none exists the food is
`none`. -/
theorem claim_c6_food_exclusive :
    (∀ (g : Game) (p : Point), p ∈ freeCells g ↔
      p ∈ allCells g.cols g.rows ∧ p ∉ g.snake ∧ p ∉ g.obstacles) ∧
    (∀ (g : Game) (r : Nat), freeCells g = [] → (g.placeFood r).food = none) ∧
    (∀ (g : Game) (r : Nat), freeCells g ≠ [] →
      ∃ p : Point, (g.placeFood r).food = some p ∧ p ∈ freeCells g ∧
        p ∈ allCells g.cols g.rows ∧ p ∉ g.snake ∧ p ∉ g.obstacles) := by
  have hmem : ∀ (g : Game) (p : Point), p ∈ freeCells g ↔
      p ∈ allCells g.cols g.rows ∧ p ∉ g.snake ∧ p ∉ g.obstacles := by
    intro g p
    unfold freeCells
    rw [List.mem_filter]
    simp [Bool.not_eq_true', hitsAny_eq_false, List.mem_append, not_or]
  refine ⟨hmem, ?_, ?_⟩
  · intro g r hfree
    have h0 : (freeCells g).length = 0 := by rw [hfree]; rfl
    simp only [Game.placeFood]
    rw [if_pos h0]
  · intro g r hne
    have hpos : 0 < (freeCells g).length := List.length_pos.mpr hne
    have hlt : r % (freeCells g).length < (freeCells g).length := Nat.mod_lt _ hpos
    have hp := getD_mem hlt (⟨0, 0⟩ : Point)
    have hchar := (hmem g _).mp hp
    refine ⟨(freeCells g).getD (r % (freeCells g).length) ⟨0, 0⟩, ?_,
      hp, hchar.1, hchar.2.1, hchar.2.2⟩
    simp only [Game.placeFood]
    rw [if_neg (by omega)]

theorem claim_c6_witness :
    (gFullEx.placeFood 0).food = none ∧
    (∃ p : Point, (gEx.placeFood 5).food = some p ∧ p ∈ freeCells gEx ∧
      p ∈ allCells gEx.cols gEx.rows ∧ p ∉ gEx.snake ∧ p ∉ gEx.obstacles) :=
  ⟨claim_c6_food_exclusive.2.1 gFullEx 0 (by decide),
   claim_c6_food_exclusive.2.2 gEx 5 (by decide)⟩
